import Mathlib

/-!
Verification of the FastDVDnet training script (`train_fastdvdnet.py`).

The script's own logic is a training control loop: epoch/step progression,
learning-rate scheduling with an orthogonalization-reset flag, a periodic
SVD-orthogonalization regularization pass, per-step metric logging, a
hard-coded debug image dump, double checkpointing around validation, and a
PSNR helper. We embed that control flow as pure functions producing event
traces, and the numeric helpers (`psnr`, the training loss) as functions over
lists of rationals (reals where logarithms and square roots are needed).
-/

/-- The mutable `training_params` dictionary of the script: the global step
counter, the `no_orthog` flag, and the resume epoch (`start_epoch`). -/
structure TrainingParams where
  step : Nat
  no_orthog : Bool
  start_epoch : Nat
deriving Repr, DecidableEq

/-- The fields of the parsed argument namespace that the training loop reads. -/
structure Args where
  batch_size : Nat
  epochs : Nat
  milestone1 : Nat
  milestone2 : Nat
  lr : ℚ
  no_orthog : Bool
  save_every : Nat
deriving Repr, DecidableEq

/-- Observable side effects of one run of the training loop, in program order:
setting the optimizer learning rate, the hard-coded debug image dump,
`model.apply(svd_orthogonalization)`, `log_train_psnr`, `model.eval()`,
`save_model_checkpoint` (recording the `start_epoch` value stored in
`training_params` at call time, and the epoch argument), and
`validate_and_log`. -/
inductive Event
  | setLR (lr : ℚ)
  | debugDump (step : Nat)
  | orthog
  | logPsnr (epoch i : Nat)
  | modelEval
  | saveCheckpoint (startEpoch epoch : Nat)
  | validate (epoch : Nat)
deriving Repr, DecidableEq, BEq

/-- The hard-coded `save_training_steps` list of the debug dump. -/
def save_training_steps : List Nat := [16314, 16400, 16841, 17357, 17929, 20709, 20968]

/-- Events emitted by the body of one minibatch iteration (epoch `epoch`,
enumeration index `i`), given the current `training_params`: the debug dump at
the hard-coded steps, then — when `step % save_every == 0` — the
orthogonalization pass (unless `no_orthog` is set) followed by the PSNR log. -/
def minibatchEvents (save_every epoch i : Nat) (tp : TrainingParams) : List Event :=
  (if tp.step ∈ save_training_steps then [Event.debugDump tp.step] else [])
    ++ (if tp.step % save_every = 0 then
          (if tp.no_orthog then [] else [Event.orthog]) ++ [Event.logPsnr epoch i]
        else [])

/-- The state update of one minibatch iteration: `training_params['step'] += 1`. -/
def minibatchStep (tp : TrainingParams) : TrainingParams :=
  { tp with step := tp.step + 1 }

/-- Run `n` minibatch iterations starting at enumeration index `i`, returning
the per-minibatch event lists and the final `training_params`. -/
def runMinibatches (save_every epoch : Nat) : Nat → Nat → TrainingParams →
    List (List Event) × TrainingParams
  | _, 0, tp => ([], tp)
  | i, n + 1, tp =>
      let evs := minibatchEvents save_every epoch i tp
      let rest := runMinibatches save_every epoch (i + 1) n (minibatchStep tp)
      (evs :: rest.1, rest.2)

/-- Modelled from the spec: `lr_scheduler` lives in `train_common`, which is
not part of this repository's sources. Per the spec (§4.1) it is a pure
function of the epoch and the configuration: the rate is the base rate for
`epoch < milestone1`, one tenth of it for `milestone1 ≤ epoch < milestone2`,
one hundredth for `epoch ≥ milestone2`; and it signals the
reset-orthogonalization flag exactly at the epoch boundaries where the rate
changes. -/
def lr_scheduler (epoch : Nat) (args : Args) : ℚ × Bool :=
  ( if epoch < args.milestone1 then args.lr
    else if epoch < args.milestone2 then args.lr / 10
    else args.lr / 100,
    decide (epoch = args.milestone1) || decide (epoch = args.milestone2) )

/-- One epoch of the training loop (`main`, loop body over `epoch`): query the
scheduler and set the learning rate, set `no_orthog` when the reset flag is
signalled, run the minibatches, then `model.eval()`, a pre-validation
checkpoint save with the unchanged `start_epoch`, the validation pass, the
`start_epoch := epoch + 1` update, and the post-validation checkpoint save. -/
def epochBody (args : Args) (nmb epoch : Nat) (tp : TrainingParams) :
    List Event × TrainingParams :=
  let sched := lr_scheduler epoch args
  let tp1 := if sched.2 then { tp with no_orthog := true } else tp
  let mb := runMinibatches args.save_every epoch 0 nmb tp1
  let tp3 := { mb.2 with start_epoch := epoch + 1 }
  (Event.setLR sched.1 :: mb.1.flatten
      ++ [Event.modelEval, Event.saveCheckpoint mb.2.start_epoch epoch,
          Event.validate epoch, Event.saveCheckpoint tp3.start_epoch epoch],
   tp3)

/-- Run `k` consecutive epochs starting at epoch `e`, returning the per-epoch
event traces and the final `training_params`. -/
def runEpochs (args : Args) (nmb : Nat) : Nat → Nat → TrainingParams →
    List (List Event) × TrainingParams
  | _, 0, tp => ([], tp)
  | e, k + 1, tp =>
      let ep := epochBody args nmb e tp
      let rest := runEpochs args nmb (e + 1) k ep.2
      (ep.1 :: rest.1, rest.2)

/-- A persisted checkpoint, as far as the training loop's control state is
concerned: the saved `training_params`. -/
structure Checkpoint where
  params : TrainingParams
deriving Repr, DecidableEq

/-- Modelled from the spec: `resume_training` lives in `train_common`, which
is not part of this repository's sources. Per the spec (§4.4, §4.5 step 1) it
returns the persisted counters when a checkpoint exists, and otherwise starts
a new run from epoch 0, step 0, with the `no_orthog` flag taken from the
configuration. -/
def resume_training (args : Args) (ckpt : Option Checkpoint) : Nat × TrainingParams :=
  match ckpt with
  | some c => (c.params.start_epoch, c.params)
  | none => (0, { step := 0, no_orthog := args.no_orthog, start_epoch := 0 })

/-- The whole training loop of `main`: resume (or start fresh), then run the
epochs from `start_epoch` up to `args.epochs`. -/
def mainRun (args : Args) (ckpt : Option Checkpoint) (nmb : Nat) :
    List (List Event) × TrainingParams :=
  let r := resume_training args ckpt
  runEpochs args nmb r.1 (args.epochs - r.1) r.2

-- ## Basic state lemmas about the minibatch loop

lemma runMinibatches_snd_step (save_every epoch : Nat) :
    ∀ (n i : Nat) (tp : TrainingParams),
      (runMinibatches save_every epoch i n tp).2.step = tp.step + n := by
  intro n
  induction n with
  | zero => intro i tp; simp [runMinibatches]
  | succ n ih =>
      intro i tp
      simp [runMinibatches, ih, minibatchStep]
      omega

lemma runMinibatches_snd_no_orthog (save_every epoch : Nat) :
    ∀ (n i : Nat) (tp : TrainingParams),
      (runMinibatches save_every epoch i n tp).2.no_orthog = tp.no_orthog := by
  intro n
  induction n with
  | zero => intro i tp; simp [runMinibatches]
  | succ n ih => intro i tp; simp [runMinibatches, ih, minibatchStep]

lemma runMinibatches_snd_start_epoch (save_every epoch : Nat) :
    ∀ (n i : Nat) (tp : TrainingParams),
      (runMinibatches save_every epoch i n tp).2.start_epoch = tp.start_epoch := by
  intro n
  induction n with
  | zero => intro i tp; simp [runMinibatches]
  | succ n ih => intro i tp; simp [runMinibatches, ih, minibatchStep]

lemma runMinibatches_fst_length (save_every epoch : Nat) :
    ∀ (n i : Nat) (tp : TrainingParams),
      (runMinibatches save_every epoch i n tp).1.length = n := by
  intro n
  induction n with
  | zero => intro i tp; simp [runMinibatches]
  | succ n ih => intro i tp; simp [runMinibatches, ih]

lemma runMinibatches_getD (save_every epoch : Nat) :
    ∀ (n i j : Nat) (tp : TrainingParams), j < n →
      (runMinibatches save_every epoch i n tp).1.getD j []
        = minibatchEvents save_every epoch (i + j)
            { tp with step := tp.step + j } := by
  intro n
  induction n with
  | zero => intro i j tp h; omega
  | succ n ih =>
      intro i j tp h
      match j with
      | 0 => simp [runMinibatches]
      | j + 1 =>
          have hj : j < n := by omega
          have := ih (i + 1) j (minibatchStep tp) hj
          simp only [runMinibatches, List.getD_cons_succ]
          rw [this]
          simp [minibatchStep]
          have h1 : i + 1 + j = i + (j + 1) := by omega
          have h2 : tp.step + 1 + j = tp.step + (j + 1) := by omega
          rw [h1, h2]

lemma orthog_mem_minibatchEvents (save_every epoch i : Nat) (tp : TrainingParams) :
    Event.orthog ∈ minibatchEvents save_every epoch i tp ↔
      (tp.step % save_every = 0 ∧ tp.no_orthog = false) := by
  by_cases h1 : tp.step ∈ save_training_steps <;>
    by_cases h2 : tp.step % save_every = 0 <;>
      by_cases h3 : tp.no_orthog <;>
        simp [minibatchEvents, h1, h2, h3]

/-- Recognizer for the batch-level PSNR logging event. -/
def isLogPsnr : Event → Bool
  | Event.logPsnr _ _ => true
  | _ => false

/-- Claim C1: the orthogonality-regularization pass fires at a minibatch if
and only if the step counter at that minibatch satisfies
`step % save_every == 0` and the `no_orthog` flag is false; and in the
concrete scenario with cadence 10, starting step 0 and 25 minibatches, both
the regularization pass and the batch-level PSNR log fire exactly at
minibatches 0, 10 and 20. -/
theorem orthog_trigger_iff_cadence :
    (∀ (save_every epoch n : Nat) (tp : TrainingParams) (j : Nat),
        j < n → 0 < save_every →
        (Event.orthog ∈ (runMinibatches save_every epoch 0 n tp).1.getD j [] ↔
          ((tp.step + j) % save_every = 0 ∧ tp.no_orthog = false)))
    ∧ (List.range 25).filter
        (fun j => ((runMinibatches 10 0 0 25 ⟨0, false, 0⟩).1.getD j []).contains Event.orthog)
        = [0, 10, 20]
    ∧ (List.range 25).filter
        (fun j => ((runMinibatches 10 0 0 25 ⟨0, false, 0⟩).1.getD j []).any isLogPsnr)
        = [0, 10, 20] := by
  refine ⟨?_, by decide, by decide⟩
  intro save_every epoch n tp j hj _
  rw [runMinibatches_getD save_every epoch n 0 j tp hj,
      orthog_mem_minibatchEvents]

/-- Witness for C1 at a concrete input: at minibatch 10 of the concrete
scenario the pass fires, and the cadence condition holds there. -/
theorem orthog_trigger_iff_cadence_witness :
    Event.orthog ∈ (runMinibatches 10 0 0 25 ⟨0, false, 0⟩).1.getD 10 [] ↔
      ((0 + 10) % 10 = 0 ∧ false = false) :=
  orthog_trigger_iff_cadence.1 10 0 25 ⟨0, false, 0⟩ 10 (by decide) (by decide)

-- ## Per-epoch checkpoint structure

/-- Recognizer for checkpoint-save events. -/
def isCheckpointSave : Event → Bool
  | Event.saveCheckpoint _ _ => true
  | _ => false

/-- Recognizer for validation-pass events. -/
def isValidation : Event → Bool
  | Event.validate _ => true
  | _ => false

lemma minibatchEvents_all (p : Event → Bool) (save_every epoch i : Nat)
    (tp : TrainingParams) (hD : ∀ s, p (Event.debugDump s) = true)
    (hO : p Event.orthog = true) (hL : ∀ ep k, p (Event.logPsnr ep k) = true) :
    (minibatchEvents save_every epoch i tp).all p = true := by
  by_cases h1 : tp.step ∈ save_training_steps <;>
    by_cases h2 : tp.step % save_every = 0 <;>
      by_cases h3 : tp.no_orthog <;>
        simp [minibatchEvents, h1, h2, h3, hD, hO, hL]

lemma runMinibatches_flatten_all (p : Event → Bool) (save_every epoch : Nat)
    (hD : ∀ s, p (Event.debugDump s) = true) (hO : p Event.orthog = true)
    (hL : ∀ ep k, p (Event.logPsnr ep k) = true) :
    ∀ (n i : Nat) (tp : TrainingParams),
      ((runMinibatches save_every epoch i n tp).1.flatten).all p = true := by
  intro n
  induction n with
  | zero => intro i tp; simp [runMinibatches]
  | succ n ih =>
      intro i tp
      simp only [runMinibatches, List.flatten_cons, List.all_append]
      rw [minibatchEvents_all p save_every epoch i tp hD hO hL, ih]
      rfl

lemma filter_eq_nil_of_all_not {α : Type} (p : α → Bool) :
    ∀ l : List α, l.all (fun a => !p a) = true → l.filter p = [] := by
  intro l
  induction l with
  | nil => intro _; rfl
  | cons a l ih =>
      intro h
      simp only [List.all_cons, Bool.and_eq_true, Bool.not_eq_true'] at h
      simp [List.filter_cons, h.1, ih h.2]

/-- Claim C5: every epoch that runs to the end of its minibatches saves a
checkpoint exactly twice — once before the validation pass with the unchanged
start-epoch counter, and once after validation with `start_epoch` set to
`epoch + 1` — with no other checkpoint save in between. -/
theorem checkpoint_twice_per_epoch :
    ∀ (args : Args) (nmb epoch : Nat) (tp : TrainingParams),
      ((epochBody args nmb epoch tp).1.filter isCheckpointSave
          = [Event.saveCheckpoint tp.start_epoch epoch,
             Event.saveCheckpoint (epoch + 1) epoch])
      ∧ ∃ pre : List Event,
          (epochBody args nmb epoch tp).1
            = pre ++ [Event.modelEval, Event.saveCheckpoint tp.start_epoch epoch,
                      Event.validate epoch, Event.saveCheckpoint (epoch + 1) epoch]
          ∧ pre.all (fun e => !(isCheckpointSave e)) = true
          ∧ pre.all (fun e => !(isValidation e)) = true := by
  intro args nmb epoch tp
  have hse :
      (runMinibatches args.save_every epoch 0 nmb
        (if (lr_scheduler epoch args).2 then { tp with no_orthog := true } else tp)).2.start_epoch
        = tp.start_epoch := by
    rw [runMinibatches_snd_start_epoch]
    split <;> rfl
  simp only [epochBody]
  rw [hse]
  have hflatS := runMinibatches_flatten_all (fun e => !(isCheckpointSave e))
    args.save_every epoch (fun _ => rfl) rfl (fun _ _ => rfl) nmb 0
    (if (lr_scheduler epoch args).2 then { tp with no_orthog := true } else tp)
  have hflatV := runMinibatches_flatten_all (fun e => !(isValidation e))
    args.save_every epoch (fun _ => rfl) rfl (fun _ _ => rfl) nmb 0
    (if (lr_scheduler epoch args).2 then { tp with no_orthog := true } else tp)
  constructor
  · have hpre : ((Event.setLR (lr_scheduler epoch args).1 ::
        (runMinibatches args.save_every epoch 0 nmb
          (if (lr_scheduler epoch args).2 then { tp with no_orthog := true } else tp)).1.flatten).all
        (fun e => !(isCheckpointSave e))) = true := by
      rw [List.all_cons, hflatS]
      rfl
    rw [List.filter_append, filter_eq_nil_of_all_not _ _ hpre]
    rfl
  · refine ⟨Event.setLR (lr_scheduler epoch args).1 ::
      (runMinibatches args.save_every epoch 0 nmb
        (if (lr_scheduler epoch args).2 then { tp with no_orthog := true } else tp)).1.flatten,
      by simp, ?_, ?_⟩
    · simp only [List.all_cons, Bool.and_eq_true]
      exact ⟨rfl, hflatS⟩
    · simp only [List.all_cons, Bool.and_eq_true]
      exact ⟨rfl, hflatV⟩

-- ## The reset-orthogonalization flag is never cleared

lemma runMinibatches_no_orthog_of_flag (save_every epoch : Nat) :
    ∀ (n i : Nat) (tp : TrainingParams), tp.no_orthog = true →
      Event.orthog ∉ (runMinibatches save_every epoch i n tp).1.flatten := by
  intro n
  induction n with
  | zero => intro i tp _; simp [runMinibatches]
  | succ n ih =>
      intro i tp h
      simp only [runMinibatches, List.flatten_cons, List.mem_append]
      rintro (h1 | h2)
      · rw [orthog_mem_minibatchEvents] at h1
        rw [h] at h1
        exact absurd h1.2 (by simp)
      · exact ih (i + 1) (minibatchStep tp) (by simp [minibatchStep, h]) h2

lemma epochBody_no_orthog_of_flag (args : Args) (nmb epoch : Nat) (tp : TrainingParams)
    (h : tp.no_orthog = true ∨ (lr_scheduler epoch args).2 = true) :
    Event.orthog ∉ (epochBody args nmb epoch tp).1
      ∧ (epochBody args nmb epoch tp).2.no_orthog = true := by
  have htp1 : (if (lr_scheduler epoch args).2 then { tp with no_orthog := true } else tp).no_orthog
      = true := by
    rcases h with h | h
    · split <;> simp [h]
    · rw [if_pos h]
  constructor
  · intro hmem
    simp only [epochBody, List.mem_append, List.mem_cons, List.mem_singleton,
      List.not_mem_nil, or_false] at hmem
    rcases hmem with (h1 | h1) | (h1 | h1 | h1 | h1)
    · exact Event.noConfusion h1
    · exact runMinibatches_no_orthog_of_flag args.save_every epoch nmb 0 _ htp1 h1
    · exact Event.noConfusion h1
    · exact Event.noConfusion h1
    · exact Event.noConfusion h1
    · exact Event.noConfusion h1
  · simp only [epochBody]
    rw [runMinibatches_snd_no_orthog]
    exact htp1

lemma runEpochs_no_orthog_of_flag (args : Args) (nmb : Nat) :
    ∀ (k e : Nat) (tp : TrainingParams), tp.no_orthog = true →
      Event.orthog ∉ (runEpochs args nmb e k tp).1.flatten := by
  intro k
  induction k with
  | zero => intro e tp _; simp [runEpochs]
  | succ k ih =>
      intro e tp h
      have hep := epochBody_no_orthog_of_flag args nmb e tp (Or.inl h)
      simp only [runEpochs, List.flatten_cons, List.mem_append]
      rintro (h1 | h1)
      · exact hep.1 h1
      · exact ih (e + 1) (epochBody args nmb e tp).2 hep.2 h1

/-- C3 counterexample configuration: milestones at epochs 1 and 2, four
epochs, cadence 1, orthogonalization initially enabled. -/
def cexArgs : Args :=
  { batch_size := 1, epochs := 4, milestone1 := 1, milestone2 := 2,
    lr := 1, no_orthog := false, save_every := 1 }

/-- Claim C3 counterexample: in the concrete run `mainRun cexArgs none 2`,
the learning rate drops at the milestone boundary (epoch 1) and the
regularization pass had fired during epoch 0, yet no epoch at or after the
drop ever fires the pass again — contradicting the claim that it is
re-enabled at some later step of the same run. -/
theorem orthog_reenabled_counterexample :
    (lr_scheduler 1 cexArgs).1 < (lr_scheduler 0 cexArgs).1
    ∧ ((mainRun cexArgs none 2).1.getD 0 []).contains Event.orthog = true
    ∧ (((mainRun cexArgs none 2).1.drop 1).all fun tr => !(tr.contains Event.orthog)) = true := by
  refine ⟨by norm_num [lr_scheduler, cexArgs], by decide, by decide⟩

/-- Claim C3 (amended): once the scheduler signals the reset-orthogonalization
flag at a rate-drop boundary, filter-orthogonalization regularization is
suspended for the remainder of the run — the flag is never cleared, so no
later step fires the regularization pass again. -/
theorem orthog_never_reenabled_after_reset :
    ∀ (args : Args) (nmb e0 k : Nat) (tp : TrainingParams),
      (lr_scheduler e0 args).2 = true →
      Event.orthog ∉ (runEpochs args nmb e0 k tp).1.flatten := by
  intro args nmb e0 k tp hreset
  match k with
  | 0 => simp [runEpochs]
  | k + 1 =>
      have hep := epochBody_no_orthog_of_flag args nmb e0 tp (Or.inr hreset)
      simp only [runEpochs, List.flatten_cons, List.mem_append]
      rintro (h1 | h1)
      · exact hep.1 h1
      · exact runEpochs_no_orthog_of_flag args nmb k (e0 + 1)
          (epochBody args nmb e0 tp).2 hep.2 h1

/-- Witness for the amended C3 at a concrete input: starting at the first
milestone epoch of `cexArgs`, the remaining three epochs fire no
orthogonalization pass. -/
theorem orthog_never_reenabled_after_reset_witness :
    Event.orthog ∉ (runEpochs cexArgs 2 1 3 ⟨2, false, 0⟩).1.flatten :=
  orthog_never_reenabled_after_reset cexArgs 2 1 3 ⟨2, false, 0⟩ (by decide)

-- ## Step-counter evolution

lemma epochBody_snd_step (args : Args) (nmb epoch : Nat) (tp : TrainingParams) :
    (epochBody args nmb epoch tp).2.step = tp.step + nmb := by
  simp only [epochBody]
  rw [runMinibatches_snd_step]
  split <;> rfl

lemma runEpochs_snd_step (args : Args) (nmb : Nat) :
    ∀ (k e : Nat) (tp : TrainingParams),
      (runEpochs args nmb e k tp).2.step = tp.step + k * nmb := by
  intro k
  induction k with
  | zero => intro e tp; simp [runEpochs]
  | succ k ih =>
      intro e tp
      simp only [runEpochs]
      rw [ih, epochBody_snd_step]
      ring

/-- Claim C8: within a run the step counter is incremented by exactly one at
the end of every minibatch iteration and never decreased or reset — after `n`
minibatches it equals the starting value plus `n`, after `k` epochs it equals
the starting value plus `k` times the minibatch count, and it strictly
increases with every additional minibatch; on resume the persisted counters
are reloaded, and only when no checkpoint exists does the run start from
step 0. -/
theorem step_monotone_and_resume :
    (∀ tp : TrainingParams, (minibatchStep tp).step = tp.step + 1)
    ∧ (∀ (save_every epoch n i : Nat) (tp : TrainingParams),
        (runMinibatches save_every epoch i n tp).2.step = tp.step + n)
    ∧ (∀ (save_every epoch n i : Nat) (tp : TrainingParams),
        (runMinibatches save_every epoch i n tp).2.step
          < (runMinibatches save_every epoch i (n + 1) tp).2.step)
    ∧ (∀ (args : Args) (nmb e k : Nat) (tp : TrainingParams),
        (runEpochs args nmb e k tp).2.step = tp.step + k * nmb)
    ∧ (∀ (args : Args) (c : Checkpoint), resume_training args (some c) = (c.params.start_epoch, c.params))
    ∧ (∀ args : Args, (resume_training args none).2.step = 0) := by
  refine ⟨fun tp => rfl, ?_, ?_, ?_, fun args c => rfl, fun args => rfl⟩
  · intro save_every epoch n i tp
    exact runMinibatches_snd_step save_every epoch n i tp
  · intro save_every epoch n i tp
    rw [runMinibatches_snd_step, runMinibatches_snd_step]
    omega
  · intro args nmb e k tp
    exact runEpochs_snd_step args nmb k e tp

-- ## The PSNR helper

/-- Sum of squared differences between two equally indexed lists — the model
of an elementwise `(img1 - img2) ** 2` followed by a sum. Tensor entries are
modelled as rationals. -/
def sqErrSum (xs ys : List ℚ) : ℚ :=
  (List.zipWith (fun a b => (a - b) ^ 2) xs ys).sum

/-- Model of `F.mse_loss(img1, img2)` with its default mean reduction: the
mean of the elementwise squared differences. -/
def mse_loss (xs ys : List ℚ) : ℚ :=
  sqErrSum xs ys / (xs.length : ℚ)

/-- Real division, made partial so that a division by zero is an explicit
domain error rather than a junk value. -/
noncomputable def safeDiv (a b : ℝ) : Option ℝ :=
  if b = 0 then none else some (a / b)

/-- Real base-10 logarithm, made partial so that a logarithm of a
non-positive number is an explicit domain error rather than a junk value. -/
noncomputable def safeLog10 (x : ℝ) : Option ℝ :=
  if x ≤ 0 then none else some (Real.logb 10 x)

/-- Result of the `psnr` function: either the `float('inf')` sentinel or a
finite value. -/
inductive PsnrOut
  | inf
  | val (v : ℝ)

/-- The `psnr` function of the script: compute the mean squared error, return
`float('inf')` when it is exactly zero, and otherwise return
`20 * log10(max_pixel / sqrt(mse))` with `max_pixel = 1.0`. A `none` result
models an uncaught numeric domain error. -/
noncomputable def psnr (img1 img2 : List ℚ) : Option PsnrOut :=
  let mse := mse_loss img1 img2
  if mse = 0 then some PsnrOut.inf
  else
    let max_pixel : ℝ := 1
    match safeDiv max_pixel (Real.sqrt ((mse : ℚ) : ℝ)) with
    | none => none
    | some q =>
      match safeLog10 q with
      | none => none
      | some l => some (PsnrOut.val (20 * l))

lemma sqErrSum_nonneg : ∀ xs ys : List ℚ, 0 ≤ sqErrSum xs ys := by
  intro xs
  induction xs with
  | nil => intro ys; simp [sqErrSum]
  | cons a xs ih =>
      intro ys
      cases ys with
      | nil => simp [sqErrSum]
      | cons b ys =>
          have h1 := ih ys
          have h2 : 0 ≤ (a - b) ^ 2 := sq_nonneg _
          simp only [sqErrSum, List.zipWith_cons_cons, List.sum_cons] at h1 ⊢
          linarith

lemma mse_loss_nonneg (xs ys : List ℚ) : 0 ≤ mse_loss xs ys :=
  div_nonneg (sqErrSum_nonneg xs ys) (Nat.cast_nonneg _)

lemma psnr_of_mse_eq_zero (img1 img2 : List ℚ) (h : mse_loss img1 img2 = 0) :
    psnr img1 img2 = some PsnrOut.inf := by
  simp [psnr, h]

lemma psnr_of_mse_ne_zero (img1 img2 : List ℚ) (h : mse_loss img1 img2 ≠ 0) :
    psnr img1 img2
      = some (PsnrOut.val
          (20 * Real.logb 10 (1 / Real.sqrt ((mse_loss img1 img2 : ℚ) : ℝ)))) := by
  have hpos : 0 < mse_loss img1 img2 := (mse_loss_nonneg img1 img2).lt_of_ne (Ne.symm h)
  have hR : (0 : ℝ) < ((mse_loss img1 img2 : ℚ) : ℝ) := by exact_mod_cast hpos
  have hs : 0 < Real.sqrt ((mse_loss img1 img2 : ℚ) : ℝ) := Real.sqrt_pos.mpr hR
  have hq : (0 : ℝ) < 1 / Real.sqrt ((mse_loss img1 img2 : ℚ) : ℝ) := by positivity
  simp only [psnr, safeDiv, safeLog10, if_neg h, if_neg (ne_of_gt hs),
    if_neg (not_le.mpr hq)]

/-- Claim C2: for every pair of same-shape (same-length, nonempty) inputs,
`psnr` returns `20 * log10(max_pixel / sqrt(mse))` with `max_pixel = 1`, it
returns the positive-infinity sentinel when the mean squared error is exactly
zero, and it never hits a division or logarithm domain error. -/
theorem psnr_matches_spec_formula :
    ∀ img1 img2 : List ℚ, img1.length = img2.length → 0 < img1.length →
      (mse_loss img1 img2 = 0 → psnr img1 img2 = some PsnrOut.inf)
      ∧ (mse_loss img1 img2 ≠ 0 →
          psnr img1 img2
            = some (PsnrOut.val
                (20 * Real.logb 10 (1 / Real.sqrt ((mse_loss img1 img2 : ℚ) : ℝ)))))
      ∧ psnr img1 img2 ≠ none := by
  intro img1 img2 _ _
  refine ⟨psnr_of_mse_eq_zero img1 img2, psnr_of_mse_ne_zero img1 img2, ?_⟩
  by_cases h : mse_loss img1 img2 = 0
  · rw [psnr_of_mse_eq_zero img1 img2 h]
    exact Option.noConfusion
  · rw [psnr_of_mse_ne_zero img1 img2 h]
    exact Option.noConfusion

/-- Witness for C2 at a concrete input: on the one-pixel images `[0]` and
`[1]` the mean squared error is `1`, and `psnr` returns the finite spec
formula value. -/
theorem psnr_matches_spec_formula_witness :
    psnr [0] [1]
      = some (PsnrOut.val
          (20 * Real.logb 10 (1 / Real.sqrt ((mse_loss [0] [1] : ℚ) : ℝ)))) :=
  (psnr_matches_spec_formula [0] [1] rfl (by decide)).2.1 (by
    norm_num [mse_loss, sqErrSum])

/-- Claim C9 counterexample: on the one-pixel images `[0]` and `[2]` (same
shape, nonzero mean squared error) `psnr` returns a finite but negative
value, `20·log10(1/2)` — so the returned value is not non-negative for every
same-shape pair with nonzero error. -/
theorem psnr_negative_counterexample :
    mse_loss [0] [2] ≠ 0
    ∧ psnr [0] [2]
        = some (PsnrOut.val
            (20 * Real.logb 10 (1 / Real.sqrt ((mse_loss [0] [2] : ℚ) : ℝ))))
    ∧ 20 * Real.logb 10 (1 / Real.sqrt ((mse_loss [0] [2] : ℚ) : ℝ)) < 0 := by
  have hm : mse_loss [0] [2] = 4 := by norm_num [mse_loss, sqErrSum]
  have hne : mse_loss [0] [2] ≠ 0 := by rw [hm]; norm_num
  refine ⟨hne, psnr_of_mse_ne_zero [0] [2] hne, ?_⟩
  rw [hm, show ((4 : ℚ) : ℝ) = 4 by norm_num,
    show Real.sqrt 4 = 2 by
      rw [show (4 : ℝ) = 2 ^ 2 by norm_num, Real.sqrt_sq (by norm_num)]]
  have hneg : Real.logb 10 (1 / 2) < 0 :=
    Real.logb_neg (by norm_num) (by norm_num) (by norm_num)
  linarith

lemma sqErrSum_le_length : ∀ xs ys : List ℚ, xs.length = ys.length →
    (∀ x ∈ xs, 0 ≤ x ∧ x ≤ 1) → (∀ y ∈ ys, 0 ≤ y ∧ y ≤ 1) →
    sqErrSum xs ys ≤ (xs.length : ℚ) := by
  intro xs
  induction xs with
  | nil => intro ys _ _ _; simp [sqErrSum]
  | cons a xs ih =>
      intro ys hlen hx hy
      cases ys with
      | nil => simp at hlen
      | cons b ys =>
          have hlen' : xs.length = ys.length := by simpa using hlen
          have hax := hx a (List.mem_cons_self a xs)
          have hby := hy b (List.mem_cons_self b ys)
          have hih := ih ys hlen'
            (fun x hx' => hx x (List.mem_cons_of_mem _ hx'))
            (fun y hy' => hy y (List.mem_cons_of_mem _ hy'))
          have hsq : (a - b) ^ 2 ≤ 1 := by nlinarith [hax.1, hax.2, hby.1, hby.2]
          simp only [sqErrSum, List.zipWith_cons_cons, List.sum_cons,
            List.length_cons] at hih ⊢
          push_cast
          linarith

lemma mse_loss_le_one (xs ys : List ℚ) (hlen : xs.length = ys.length)
    (hpos : 0 < xs.length) (hx : ∀ x ∈ xs, 0 ≤ x ∧ x ≤ 1)
    (hy : ∀ y ∈ ys, 0 ≤ y ∧ y ≤ 1) : mse_loss xs ys ≤ 1 := by
  rw [mse_loss, div_le_one (by exact_mod_cast hpos)]
  exact sqErrSum_le_length xs ys hlen hx hy

/-- Claim C9 (amended): for every pair of same-shape nonempty inputs whose
entries lie in the normalized range `[0, 1]` and whose mean squared error is
nonzero, `psnr` returns a finite, non-negative value. -/
theorem psnr_nonneg_unit_range :
    ∀ img1 img2 : List ℚ, img1.length = img2.length → 0 < img1.length →
      (∀ x ∈ img1, 0 ≤ x ∧ x ≤ 1) → (∀ y ∈ img2, 0 ≤ y ∧ y ≤ 1) →
      mse_loss img1 img2 ≠ 0 →
      psnr img1 img2
        = some (PsnrOut.val
            (20 * Real.logb 10 (1 / Real.sqrt ((mse_loss img1 img2 : ℚ) : ℝ))))
      ∧ 0 ≤ 20 * Real.logb 10 (1 / Real.sqrt ((mse_loss img1 img2 : ℚ) : ℝ)) := by
  intro img1 img2 hlen hpos hx hy hne
  refine ⟨psnr_of_mse_ne_zero img1 img2 hne, ?_⟩
  have hmp : 0 < mse_loss img1 img2 := (mse_loss_nonneg _ _).lt_of_ne (Ne.symm hne)
  have hm1 : mse_loss img1 img2 ≤ 1 := mse_loss_le_one img1 img2 hlen hpos hx hy
  have hRp : (0 : ℝ) < ((mse_loss img1 img2 : ℚ) : ℝ) := by exact_mod_cast hmp
  have hR1 : ((mse_loss img1 img2 : ℚ) : ℝ) ≤ 1 := by exact_mod_cast hm1
  have hsp : 0 < Real.sqrt ((mse_loss img1 img2 : ℚ) : ℝ) := Real.sqrt_pos.mpr hRp
  have hs1 : Real.sqrt ((mse_loss img1 img2 : ℚ) : ℝ) ≤ 1 := Real.sqrt_le_one.mpr hR1
  have hq : 1 ≤ 1 / Real.sqrt ((mse_loss img1 img2 : ℚ) : ℝ) := one_le_one_div hsp hs1
  have hlog := Real.logb_nonneg (by norm_num : (1 : ℝ) < 10) hq
  linarith

/-- Witness for the amended C9 at a concrete input: on `[0]` and `[1]` (unit
range, mean squared error 1) the returned value is non-negative. -/
theorem psnr_nonneg_unit_range_witness :
    0 ≤ 20 * Real.logb 10 (1 / Real.sqrt ((mse_loss [0] [1] : ℚ) : ℝ)) :=
  (psnr_nonneg_unit_range [0] [1] rfl (by decide) (by norm_num) (by norm_num)
    (by norm_num [mse_loss, sqErrSum])).2

-- ## The training loss

/-- Model of `nn.MSELoss(reduction='sum')` applied to a pair of same-shape
tensors: the sum of elementwise squared errors. -/
def criterion (gt out : List ℚ) : ℚ := sqErrSum gt out

/-- The per-minibatch training loss of the script:
`loss = criterion(gt_train, out_train) / (N*2)` with `N` the batch size. -/
def trainLoss (gt out : List ℚ) (N : Nat) : ℚ :=
  criterion gt out / ((N : ℚ) * 2)

/-- The loss formula in the spec's words: the sum of squared errors between
the ground-truth central frame and the model output, divided by
(2 × batch size). -/
def specLoss (gt out : List ℚ) (N : Nat) : ℚ :=
  (List.zipWith (fun a b => (a - b) ^ 2) gt out).sum / (2 * (N : ℚ))

/-- Claim C6: for every minibatch, the training loss equals the sum of
squared errors between the ground-truth central frame and the model output
divided by (2 × N), where N is the minibatch's batch size. -/
theorem train_loss_matches_spec :
    ∀ (gt out : List ℚ) (N : Nat), trainLoss gt out N = specLoss gt out N := by
  intro gt out N
  rw [trainLoss, specLoss, criterion, sqErrSum, mul_comm]

-- ## Model input preparation inside a minibatch

/-- A minibatch as delivered by `normalize_augment`: the full original and
pre-noised sequences and the extracted central frames. -/
structure Batch where
  imgOriginal : List ℚ
  imgNoisy : List ℚ
  gtOriginal : List ℚ
  gtNoisy : List ℚ
deriving Repr, DecidableEq

/-- The randomness drawn inside one minibatch iteration: the per-example
standard deviations (uniform in the configured interval) and the Gaussian
noise sample. -/
structure NoiseDraw where
  stdn : List ℚ
  gauss : List ℚ
deriving Repr, DecidableEq

/-- The pair of tensors handed to the model:
`out_train = model(imgn_train, noise_map)`. -/
structure ModelCall where
  input : List ℚ
  noise_map : List ℚ
deriving Repr, DecidableEq

/-- `stdn.expand((N, 1, H, W))`: each example's standard deviation repeated
over the `H*W` spatial positions of its one-channel map. -/
def expandStdn (stdn : List ℚ) (hw : Nat) : List ℚ :=
  stdn.flatMap (List.replicate hw)

/-- The input-preparation block of one minibatch iteration (noise synthesis,
the `imgn_train = img_train_noisy` selection, and the noise-map expansion),
as a function of the batch and of the drawn randomness. -/
def prepareModelCall (b : Batch) (d : NoiseDraw) (hw : Nat) : ModelCall :=
  let stdn := d.stdn
  let _noise := d.gauss
  let imgn_train := b.imgNoisy
  { input := imgn_train, noise_map := expandStdn stdn hw }

/-- Claim C7: the tensor fed to the model equals the loader's pre-noised
sequence `img_train_noisy`; any two draws of the synthesized noise and of the
per-example standard deviations produce the identical model input, and the
noise map alongside is a function of the drawn standard deviations alone. -/
theorem model_input_independent_of_noise :
    ∀ (b : Batch) (d1 d2 : NoiseDraw) (hw : Nat),
      (prepareModelCall b d1 hw).input = (prepareModelCall b d2 hw).input
      ∧ (prepareModelCall b d1 hw).input = b.imgNoisy
      ∧ (prepareModelCall b d1 hw).noise_map = expandStdn d1.stdn hw := by
  intro b d1 d2 hw
  exact ⟨rfl, rfl, rfl⟩

-- ## The startup block

/-- The parsed command-line namespace as it reaches the startup block. -/
structure ParsedArgs where
  batch_size : Nat
  epochs : Nat
  milestone : Nat × Nat
  lr : ℚ
  no_orthog : Bool
  save_every : Nat
  noise_ival : ℚ × ℚ
  val_noiseL : ℚ
deriving Repr, DecidableEq

/-- The `__main__` block between argument parsing and the call to `main`: it
normalizes `val_noiseL` and `noise_ival` to the `[0, 1]` scale by dividing by
255, and performs no validation of any flag. An `Except.error` result would
model a startup failure. -/
def startup (a : ParsedArgs) : Except String ParsedArgs :=
  Except.ok { a with
    val_noiseL := a.val_noiseL / 255,
    noise_ival := (a.noise_ival.1 / 255, a.noise_ival.2 / 255) }

/-- A configuration violating the milestone ordering invariant:
`milestone = (60, 50)` with 80 epochs. -/
def badMilestoneArgs : ParsedArgs :=
  { batch_size := 64, epochs := 80, milestone := (60, 50), lr := 1 / 1000,
    no_orthog := false, save_every := 10, noise_ival := (5, 55), val_noiseL := 25 }

/-- Claim C4 counterexample: `badMilestoneArgs` violates
`milestone[0] < milestone[1] < epochs`, yet startup succeeds — the program
does not fail fast on a misordered milestone configuration. -/
theorem startup_accepts_bad_milestones :
    ¬(badMilestoneArgs.milestone.1 < badMilestoneArgs.milestone.2
        ∧ badMilestoneArgs.milestone.2 < badMilestoneArgs.epochs)
    ∧ (startup badMilestoneArgs).isOk = true := by
  constructor
  · intro h
    exact absurd h.1 (by decide)
  · rfl

/-- Claim C4 (amended): the startup block performs no milestone validation at
all — for every parsed configuration, including any violating
`milestone[0] < milestone[1] < epochs`, startup succeeds and training
proceeds. -/
theorem startup_never_fails :
    ∀ a : ParsedArgs, (startup a).isOk = true := by
  intro a
  rfl

-- ## The debug image-save routine

/-- An exception raised by one of the operations inside
`save_image_with_absolute_path` (directory creation, array conversion, file
write); all of these derive from Python's `Exception`. -/
inductive PyError
  | osError (msg : String)
  | valueError (msg : String)
deriving Repr, DecidableEq

/-- The message text of an exception (`str(e)`). -/
def PyError.message : PyError → String
  | .osError m => m
  | .valueError m => m

/-- The outcomes of the three effectful operations in the body of
`save_image_with_absolute_path`: `os.makedirs`, `Image.fromarray`, and
`img_pil.save`. -/
structure ImageIOEnv where
  makedirsResult : Except PyError Unit
  fromarrayResult : Except PyError Unit
  saveResult : Except PyError Unit
deriving Repr

/-- Observable outcomes of the routine: directory creation, the saved file,
or the printed error message. -/
inductive IOEvent
  | dirsCreated
  | imageSaved (path : String)
  | printed (s : String)
deriving Repr, DecidableEq

/-- The `try` body of `save_image_with_absolute_path`: run `os.makedirs`,
`Image.fromarray` and `img_pil.save` in order, stopping at the first raised
exception. -/
def saveImageBody (env : ImageIOEnv) (path : String) : Except PyError (List IOEvent) :=
  match env.makedirsResult with
  | .error e => .error e
  | .ok _ =>
    match env.fromarrayResult with
    | .error e => .error e
    | .ok _ =>
      match env.saveResult with
      | .error e => .error e
      | .ok _ => .ok [IOEvent.dirsCreated, IOEvent.imageSaved path]

/-- `save_image_with_absolute_path`: the body wrapped in
`try/except Exception`, printing the error and returning normally. A result
of `Except.error` would model an exception propagating to the caller. -/
def save_image_with_absolute_path (env : ImageIOEnv) (path : String) :
    Except PyError (List IOEvent) :=
  match saveImageBody env path with
  | .ok evs => .ok evs
  | .error e => .ok [IOEvent.printed ("Error saving image: " ++ e.message)]

/-- Claim C10: `save_image_with_absolute_path` never propagates an exception
to its caller — for every outcome of the underlying file operations it
returns normally, and whenever the body raises, the routine prints the error
message instead. -/
theorem save_image_never_propagates :
    (∀ (env : ImageIOEnv) (path : String),
        (save_image_with_absolute_path env path).isOk = true)
    ∧ (∀ (env : ImageIOEnv) (path : String) (e : PyError),
        saveImageBody env path = .error e →
        save_image_with_absolute_path env path
          = .ok [IOEvent.printed ("Error saving image: " ++ e.message)]) := by
  constructor
  · intro env path
    rw [save_image_with_absolute_path]
    cases saveImageBody env path <;> rfl
  · intro env path e h
    rw [save_image_with_absolute_path, h]

/-- Witness for C10 at a concrete input: a failing `os.makedirs` is caught
and printed, and the routine returns normally. -/
theorem save_image_never_propagates_witness :
    save_image_with_absolute_path
        ⟨Except.error (PyError.osError "disk full"), Except.ok (), Except.ok ()⟩ "/tmp/a.png"
      = .ok [IOEvent.printed ("Error saving image: "
          ++ (PyError.osError "disk full").message)] :=
  save_image_never_propagates.2
    ⟨Except.error (PyError.osError "disk full"), Except.ok (), Except.ok ()⟩
    "/tmp/a.png" (PyError.osError "disk full") rfl
